import Mathlib

/-!
Shallow embedding of the Solana DEX trade-parsing core of this repository:
the `SimpleCache`, the balance-change extractors, `analyzeSOLTokenTrade`,
`calculatePrice`, `parsePumpFunTransaction`, `parseGenericTransaction`
(all from the `SolanaDexTradeParser` module) and the batch pipeline
`parseMultipleTradeInfo` / `parseTradeInfoInternal`.

JavaScript conventions captured by the model:
- numbers are modelled as exact rationals (`ℚ`); lamport balances as `ℤ`;
- `undefined`/`null` fields are `Option`s; property access on `undefined`
  (a TypeError) is modelled with `Except Unit`;
- string falsiness (`""` is falsy) and array truthiness (`[]` is truthy)
  follow JS;
- a JS `Map` is an association list keeping first-insertion order, with
  `set` updating in place for an existing key and appending otherwise.
-/

namespace SolExplain

/-- JS `Map` as an insertion-ordered association list. -/
abbrev JMap (α : Type) := List (String × α)

/-- JS `Map.prototype.set`: update in place if the key exists, else append. -/
def jmSet {α : Type} (m : JMap α) (k : String) (v : α) : JMap α :=
  if m.any (fun p => p.1 = k) then
    m.map (fun p => if p.1 = k then (k, v) else p)
  else
    m ++ [(k, v)]

/-- JS `Map.prototype.get` (returns `undefined` as `none`). -/
def jmGet {α : Type} (m : JMap α) (k : String) : Option α :=
  (m.find? (fun p => p.1 = k)).map (fun p => p.2)

/-- JS `Map.prototype.has`. -/
def jmHas {α : Type} (m : JMap α) (k : String) : Bool :=
  m.any (fun p => p.1 = k)

/-- JS `String.prototype.includes`. -/
def jsIncludes (hay needle : String) : Bool :=
  decide (needle.data <:+: hay.data)

/-- JS `String.prototype.toLowerCase` (character-wise, kernel-reducible
form of `String.toLower`). -/
def jsToLower (s : String) : String := String.mk (s.data.map Char.toLower)

/-- JS string falsiness for an optional string: `undefined`, `null` and `""`
are falsy. -/
def jFalsy : Option String → Bool
  | none => true
  | some s => s = ""

/-- JS `a || b` on optional strings (`""` is falsy). -/
def jOrElse (x y : Option String) : Option String :=
  if jFalsy x then y else x

/-- `Math.abs` (kernel-reducible form of `|·|` on `ℚ`). -/
def jsAbs (q : ℚ) : ℚ := if q < 0 then -q else q

theorem jsAbs_eq_abs (q : ℚ) : jsAbs q = |q| := by
  by_cases h : q < 0
  · simp [jsAbs, h, abs_of_neg h]
  · simp [jsAbs, h, abs_of_nonneg (not_lt.mp h)]

/-- Native mint address (`this.SOL_MINT` in the source). -/
def SOL_MINT : String := "So11111111111111111111111111111111111111112"

/-! ## SimpleCache (source lines 6–42 of the parser module)

The JS `Map` underlying the cache keeps insertion order;
`this.cache.keys().next().value` is the key of the first-inserted entry. -/

/-- One stored cache item: `{ value, timestamp }` keyed by the signature. -/
structure CacheItem (α : Type) where
  key : String
  value : α
  timestamp : ℤ
deriving Repr, DecidableEq

/-- The `SimpleCache` class: a bounded, TTL-based memoization map. -/
structure SimpleCache (α : Type) where
  cache : List (CacheItem α)
  maxSize : ℕ
  ttl : ℤ
deriving Repr, DecidableEq

namespace SimpleCache

/-- `new SimpleCache(maxSize, ttl)`. -/
def empty (α : Type) (maxSize : ℕ) (ttl : ℤ) : SimpleCache α :=
  { cache := [], maxSize := maxSize, ttl := ttl }

/-- The keys currently stored, oldest first. -/
def keys {α : Type} (c : SimpleCache α) : List String :=
  c.cache.map (fun i => i.key)

/-- `SimpleCache.set(key, value)` at time `now`: if the cache is full,
delete the entry with the first (oldest-inserted) key, then store
`{value, timestamp: now}` under `key`. -/
def set {α : Type} (c : SimpleCache α) (key : String) (value : α) (now : ℤ) :
    SimpleCache α :=
  let l :=
    if c.maxSize ≤ c.cache.length then
      match c.cache with
      | [] => []
      | _ :: rest => rest
    else c.cache
  let l' :=
    if l.any (fun i => i.key = key) then
      l.map (fun i => if i.key = key then ⟨key, value, now⟩ else i)
    else
      l ++ [⟨key, value, now⟩]
  { c with cache := l' }

/-- `SimpleCache.get(key)` at time `now`: `null` on a miss; on an expired
entry delete it and return `null`; otherwise return the stored value.
Returns the possibly-mutated cache alongside the result. -/
def get {α : Type} (c : SimpleCache α) (key : String) (now : ℤ) :
    Option α × SimpleCache α :=
  match c.cache.find? (fun i => i.key = key) with
  | none => (none, c)
  | some item =>
    if c.ttl < now - item.timestamp then
      (none, { c with cache := c.cache.filter (fun i => ¬ i.key = key) })
    else
      (some item.value, c)

end SimpleCache

/-! ## Transaction data model (the decoded RPC payload consumed by the parser)

Account entries are duck-typed in the source: either plain address strings
or objects carrying `pubkey` / `signer` / `writable`. -/

/-- One entry of `message.accountKeys` (or of `loadedAddresses`). -/
inductive JAccount where
  | str (s : String)
  | obj (pubkey : String) (signer : Option Bool) (writable : Bool)
deriving Repr, DecidableEq

/-- JS truthiness of an optional account entry (`""` is falsy, objects are
truthy, `undefined` is falsy). -/
def jAccTruthy : Option JAccount → Bool
  | none => false
  | some (.str s) => s ≠ ""
  | some (.obj _ _ _) => true

/-- `acc.pubkey?.toString() || acc.toString?.() || String(acc)` for an
object-shaped account; the address itself for a string-shaped one. -/
def JAccount.addr : JAccount → String
  | .str s => s
  | .obj p _ _ => if p = "" then "[object Object]" else p

/-- `typeof acc === 'object' && acc.signer` (truthy signer flag). -/
def JAccount.isObjSigner : JAccount → Bool
  | .str _ => false
  | .obj _ s _ => s.getD false

/-- One instruction: `programId` (stringified, when present and truthy),
`programIdIndex` for unparsed instructions, and the `parsed.type` string
when the instruction carries a `parsed` object (`some ""` models a parsed
object whose `type` is missing). -/
structure Instr where
  programId : Option String := none
  programIdIndex : Option ℕ := none
  parsed : Option String := none
deriving Repr, DecidableEq

/-- `getProgramId(ix, accountKeys)` as defined inside the parser. -/
def getProgramId (ix : Instr) (accountKeys : Option (List JAccount)) :
    Option String :=
  match ix.programId with
  | some s =>
    if s ≠ "" then some s
    else fallbackFromIndex
  | none => fallbackFromIndex
where
  fallbackFromIndex : Option String :=
    match ix.programIdIndex, accountKeys with
    | some i, some keys =>
      let acc := keys[i]?
      if jAccTruthy acc then acc.map JAccount.addr else none
    | _, _ => none

/-- One group of `meta.innerInstructions`; the source checks
`Array.isArray(inner.instructions)` before using it. -/
structure InnerInstrGroup where
  instructions : Option (List Instr) := none
deriving Repr, DecidableEq

/-- `uiTokenAmount` of a token balance entry. -/
structure UiTokenAmount where
  uiAmount : Option ℚ := none
  decimals : Option ℕ := none
deriving Repr, DecidableEq

/-- One entry of `meta.preTokenBalances` / `meta.postTokenBalances`. -/
structure TokenBal where
  owner : Option String := none
  mint : Option String := none
  uiTokenAmount : Option UiTokenAmount := none
deriving Repr, DecidableEq

/-- `b.uiTokenAmount?.uiAmount || 0`. -/
def TokenBal.amt (b : TokenBal) : ℚ :=
  ((b.uiTokenAmount.bind UiTokenAmount.uiAmount).getD 0)

/-- `b.uiTokenAmount?.decimals || 0`. -/
def TokenBal.dec (b : TokenBal) : ℕ :=
  ((b.uiTokenAmount.bind UiTokenAmount.decimals).getD 0)

/-- `meta.loadedAddresses` (addresses appended after `accountKeys`). -/
structure LoadedAddresses where
  writable : Option (List String) := none
  readonly : Option (List String) := none
deriving Repr, DecidableEq

/-- `message.header`. -/
structure MsgHeader where
  numRequiredSignatures : Option ℕ := none
  numReadonlySignedAccounts : Option ℕ := none
deriving Repr, DecidableEq

/-- `transaction.message`. -/
structure Message where
  accountKeys : Option (List JAccount) := none
  instructions : Option (List Instr) := none
  header : Option MsgHeader := none
deriving Repr, DecidableEq

/-- `transaction.meta`. -/
structure Meta where
  innerInstructions : Option (List InnerInstrGroup) := none
  logMessages : Option (List String) := none
  preBalances : Option (List ℤ) := none
  postBalances : Option (List ℤ) := none
  preTokenBalances : Option (List TokenBal) := none
  postTokenBalances : Option (List TokenBal) := none
  loadedAddresses : Option LoadedAddresses := none
deriving Repr, DecidableEq

/-- The `transaction` sub-object of the RPC payload. -/
structure TxData where
  message : Option Message := none
deriving Repr, DecidableEq

/-- The decoded transaction record handed to the parser. -/
structure Tx where
  meta : Option Meta := none
  transaction : Option TxData := none
deriving Repr, DecidableEq

/-- JS computations that can raise a `TypeError`/`ReferenceError`. -/
abbrev JS (α : Type) := Except Unit α

/-- Property access on a possibly-`undefined` value: throws when absent. -/
def jsGet {α : Type} : Option α → JS α
  | some a => .ok a
  | none => .error ()

/-! ## Balance-change extractors -/

/-- One element of the list produced by `parseTokenBalanceChanges`. -/
structure TokenChange where
  mint : String
  owner : String
  preAmount : ℚ
  postAmount : ℚ
  change : ℚ
  decimals : ℕ
deriving Repr, DecidableEq

/-- Truthiness of `owner`/`mint` fields (`if (pre.owner && pre.mint)`). -/
def tbKeyed (b : TokenBal) : Bool :=
  ¬ jFalsy b.owner ∧ ¬ jFalsy b.mint

/-- The `${owner}-${mint}` key of a (keyed) token balance entry. -/
def tbKey (b : TokenBal) : String :=
  b.owner.getD "" ++ "-" ++ b.mint.getD ""

/-- `parseTokenBalanceChanges(meta)`: builds `(owner, mint)`-keyed maps of
pre and post token balances, emits a change for every pair whose balance
moved by more than `1e-6`, plus synthetic entries for fully-exited
(`pre` only) and newly-created (`post` only) accounts, deduplicated by
key. Never throws (all accesses are guarded in the source). -/
def parseTokenBalanceChanges (meta : Option Meta) : List TokenChange :=
  match meta with
  | none => []
  | some m =>
    if m.postTokenBalances = none ∧ m.preTokenBalances = none then []
    else
      let preTB := m.preTokenBalances.getD []
      let postTB := m.postTokenBalances.getD []
      let preMap : JMap TokenBal :=
        preTB.foldl (fun acc pre =>
          if tbKeyed pre then jmSet acc (tbKey pre) pre else acc) []
      let postMap : JMap TokenBal :=
        postTB.foldl (fun acc post =>
          if tbKeyed post then jmSet acc (tbKey post) post else acc) []
      -- pass 1: post balances against matching pre balances
      let s1 : JMap TokenChange :=
        postTB.foldl (fun acc post =>
          if ¬ tbKeyed post then acc
          else
            let key := tbKey post
            let pre := jmGet preMap key
            let postAmount := post.amt
            let preAmount := (pre.map TokenBal.amt).getD 0
            if (1 : ℚ)/1000000 < jsAbs (postAmount - preAmount) then
              jmSet acc key
                { mint := post.mint.getD "", owner := post.owner.getD ""
                  preAmount := preAmount, postAmount := postAmount
                  change := postAmount - preAmount, decimals := post.dec }
            else acc) []
      -- pass 2: pre-only pairs (account fully exited)
      let s2 : JMap TokenChange :=
        preTB.foldl (fun acc pre =>
          if ¬ tbKeyed pre then acc
          else
            let key := tbKey pre
            let post := jmGet postMap key
            let preAmount := pre.amt
            let postAmount := (post.map TokenBal.amt).getD 0
            if (1 : ℚ)/1000000 < preAmount ∧
                (post = none ∨ postAmount < (1 : ℚ)/1000000) then
              if jmHas acc key then acc
              else
                jmSet acc key
                  { mint := pre.mint.getD "", owner := pre.owner.getD ""
                    preAmount := preAmount, postAmount := 0
                    change := -preAmount, decimals := pre.dec }
            else acc) s1
      -- pass 3: post-only pairs (brand-new account)
      let s3 : JMap TokenChange :=
        postTB.foldl (fun acc post =>
          if ¬ tbKeyed post then acc
          else
            let key := tbKey post
            let pre := jmGet preMap key
            let postAmount := post.amt
            if (1 : ℚ)/1000000 < postAmount ∧ pre = none then
              if jmHas acc key then acc
              else
                jmSet acc key
                  { mint := post.mint.getD "", owner := post.owner.getD ""
                    preAmount := 0, postAmount := postAmount
                    change := postAmount, decimals := post.dec }
            else acc) s2
      s3.map (fun p => p.2)

/-- One element of the list produced by `parseSOLBalanceChanges`.
`preBalance`/`change` are `none` when `preBalances[index]` is missing
(the JS code then stores `NaN`). -/
structure SolChange where
  account : String
  preBalance : Option ℚ
  postBalance : ℚ
  change : Option ℚ
  isSigner : Bool
  isWritable : Bool
deriving Repr, DecidableEq

/-- `Math.abs(c.change) > t`, false for `NaN`. -/
def chAbsGt (c : Option ℚ) (t : ℚ) : Bool :=
  match c with
  | none => false
  | some q => t < jsAbs q

/-- `c.change < 0`, false for `NaN`. -/
def chNeg (c : Option ℚ) : Bool :=
  match c with
  | none => false
  | some q => q < 0

/-- `c.change > 0`, false for `NaN`. -/
def chPos (c : Option ℚ) : Bool :=
  match c with
  | none => false
  | some q => 0 < q

/-- The value of a (non-`NaN`) change. -/
def chVal (c : Option ℚ) : ℚ := c.getD 0

/-- The entry pushed by `parseSOLBalanceChanges` for account position `idx`
with the given post-lamports and optional pre-lamports: UI-unit amounts
(divide by 1e9), account address and signer/writable resolution from the
account list extended with loaded addresses. -/
def solEntryFor (message : Message) (m : Meta) (idx : ℕ) (postBalance : ℤ)
    (preBalance : Option ℤ) : SolChange :=
  let signerEndIndex :=
    ((message.header.bind MsgHeader.numRequiredSignatures).getD 0)
  let baseKeys := message.accountKeys.getD []
  let loaded := m.loadedAddresses.getD {}
  let allLoadedAddresses := loaded.writable.getD [] ++ loaded.readonly.getD []
  let allAccountKeys := baseKeys ++ allLoadedAddresses.map JAccount.str
  let accountKey := allAccountKeys[idx]?
  let resolved : String × Bool × Bool :=
    if jAccTruthy accountKey then
      match accountKey with
      | some (.str s) => (s, decide (idx < signerEndIndex), false)
      | some (.obj p s w) =>
        (JAccount.addr (.obj p s w),
         s.getD (decide (idx < signerEndIndex)), w)
      | none => ("", false, false)
    else
      let loadedIndex : ℤ := (idx : ℤ) - (baseKeys.length : ℤ)
      if 0 ≤ loadedIndex ∧ loadedIndex < (allLoadedAddresses.length : ℤ)
      then (allLoadedAddresses.getD loadedIndex.toNat "", false, false)
      else ("account_" ++ toString idx,
            decide (idx < signerEndIndex), false)
  { account := resolved.1
    preBalance := preBalance.map (fun p => (p : ℚ) / 1000000000)
    postBalance := (postBalance : ℚ) / 1000000000
    change := preBalance.map
      (fun p => ((postBalance - p : ℤ) : ℚ) / 1000000000)
    isSigner := resolved.2.1
    isWritable := resolved.2.2 }

/-- The body of the `meta.postBalances.forEach` loop of
`parseSOLBalanceChanges`, for one `(index, postBalance)` pair: accessing
`meta.preBalances[index]` throws when `preBalances` is absent; otherwise
an entry is pushed exactly when `preBalance !== postBalance`
(a missing `preBalances[index]` is `undefined`, which compares unequal). -/
def solStep (message : Message) (m : Meta) (acc : List SolChange)
    (ib : ℕ × ℤ) : JS (List SolChange) := do
  let pres ← jsGet m.preBalances
  let preBalance := pres[ib.1]?
  if preBalance ≠ some ib.2 then
    return acc ++ [solEntryFor message m ib.1 ib.2 preBalance]
  else
    return acc

/-- `parseSOLBalanceChanges(transaction)`: destructures
`{ meta, transaction: { message } }` (throws when `transaction.transaction`
is absent), returns `[]` when `meta?.postBalances` is nullish, then for
every index of `postBalances` whose value differs (`!==`) from
`preBalances[index]` emits an entry with UI-unit amounts and
signer/writable resolution. Accessing `message.header` throws when
`message` is absent, and `meta.preBalances[index]` throws when
`preBalances` is absent (and `postBalances` is nonempty). There is no
dust threshold: any difference is emitted. -/
def parseSOLBalanceChanges (tx : Tx) : JS (List SolChange) := do
  let txData ← jsGet tx.transaction
  match tx.meta with
  | none => return []
  | some m =>
    match m.postBalances with
    | none => return []
    | some posts =>
      let message ← jsGet txData.message
      posts.enum.foldlM (solStep message m) []

/-! ## Trade outcome and the SOL–token classifier -/

/-- One side of a trade outcome. -/
structure TokenSide where
  mint : String
  symbol : String
  amount : ℚ
  decimals : ℕ
deriving Repr, DecidableEq

/-- The trade outcome object; fields added by spreads in the various
parsers (`dex`, `source`, `note`, `platform`, …) are optional. -/
structure TradeInfo where
  type : String
  soldToken : TokenSide
  boughtToken : TokenSide
  price : ℚ
  holderAddress : Option String := none
  dex : Option String := none
  source : Option String := none
  note : Option String := none
  platform : Option String := none
  instrCount : Option ℕ := none
  routed : Option Bool := none
deriving Repr, DecidableEq

/-- `arr.reduce((max, item) => f(item) > f(max) ? item : max, init)`:
strict comparison, the earliest maximal element wins ties. -/
def jsReduceMax {α : Type} (f : α → ℚ) (init : α) (l : List α) : α :=
  l.foldl (fun max item => if f max < f item then item else max) init

/-- `x?.account || y?.account || null` style three-way chain. -/
def jOr3 (a b : Option String) : Option String :=
  if ¬ jFalsy a then a else if ¬ jFalsy b then b else none

/-- `calculatePrice(sold, bought)` applied to the two `.amount` fields:
`Math.abs(sold.amount)` in the denominator, and a literal `0` — not
`null` — whenever that absolute sold amount is `0`. -/
def calculatePrice (soldAmount boughtAmount : ℚ) : ℚ :=
  if jsAbs soldAmount = 0 then 0 else boughtAmount / jsAbs soldAmount

/-- `inferTradeType(inputMint, outputMint)`. -/
def inferTradeType (inputMint outputMint : String) : String :=
  if inputMint = SOL_MINT then "buy"
  else if outputMint = SOL_MINT then "sell"
  else "swap"

/-- Per-mint aggregate of the effective token changes
(`tokenChangeMap` values in `analyzeSOLTokenTrade`). -/
structure AggTok where
  mint : String
  decimals : ℕ
  totalChange : ℚ
deriving Repr, DecidableEq

/-- `analyzeSOLTokenTrade(tokenChanges, solChanges)`: filters dust
(`|SOL change| > 0.0001`, `|token change| > 0.000001`, non-native mints
only), attributes token changes to the acting accounts through four
fallback layers, aggregates per mint, and classifies: native spent plus a
positive token aggregate is a buy; otherwise native received plus a
negative token aggregate is a sell; otherwise no outcome. In the sell
branch, when every holder-address fallback stays falsy the source
dereferences an undefined `transaction` variable, which raises — modelled
as `.error`. -/
def analyzeSOLTokenTrade (tokenChanges : List TokenChange)
    (solChanges : List SolChange) : JS (Option TradeInfo) :=
  let significantSolChanges :=
    solChanges.filter (fun c => chAbsGt c.change ((1 : ℚ)/10000))
  let significantTokenChanges := tokenChanges.filter (fun c =>
    if c.mint = SOL_MINT ∨ c.mint = "SOL" then false
    else (1 : ℚ)/1000000 < jsAbs c.change)
  let solSpentChanges := significantSolChanges.filter (fun c => chNeg c.change)
  let solSpentAccounts := solSpentChanges.map (fun c => c.account)
  let solReceivedChanges :=
    significantSolChanges.filter (fun c => chPos c.change)
  let solReceivedAccounts := solReceivedChanges.map (fun c => c.account)
  let signerSolChanges := significantSolChanges.filter (fun c => c.isSigner)
  let signerAccounts := signerSolChanges.map (fun c => c.account)
  let userTokenChanges := significantTokenChanges.filter (fun c =>
    (0 < c.change ∧ (solSpentAccounts.contains c.owner ∨
                     signerAccounts.contains c.owner)) ∨
    (c.change < 0 ∧ (solReceivedAccounts.contains c.owner ∨
                     signerAccounts.contains c.owner)))
  -- fallback 2: token changes of signer accounts
  let e2 :=
    if userTokenChanges.isEmpty ∧ ¬ signerSolChanges.isEmpty then
      significantTokenChanges.filter (fun c => signerAccounts.contains c.owner)
    else userTokenChanges
  -- fallback 3 (buy side): the largest positive token change
  let e3 :=
    if e2.isEmpty ∧ ¬ solSpentChanges.isEmpty then
      let positiveTokenChanges :=
        significantTokenChanges.filter (fun c => 0 < c.change)
      match positiveTokenChanges with
      | [] => e2
      | h :: t => [jsReduceMax (fun c => jsAbs c.change) h (h :: t)]
    else e2
  -- fallback 4: per-mint largest-magnitude change
  let e4 :=
    if e3.isEmpty ∧ ¬ significantTokenChanges.isEmpty then
      let byMint : JMap (List TokenChange) :=
        significantTokenChanges.foldl (fun acc c =>
          match jmGet acc c.mint with
          | some l => jmSet acc c.mint (l ++ [c])
          | none => jmSet acc c.mint [c]) []
      byMint.foldl (fun acc p =>
        match p.2 with
        | [] => acc
        | h :: t => acc ++ [jsReduceMax (fun c => jsAbs c.change) h (h :: t)]) []
    else e3
  -- aggregate the effective changes per mint
  let tokenChangeMap : JMap AggTok :=
    e4.foldl (fun acc c =>
      match jmGet acc c.mint with
      | some a => jmSet acc c.mint { a with totalChange := a.totalChange + c.change }
      | none => jmSet acc c.mint ⟨c.mint, c.decimals, c.change⟩) []
  let aggs := tokenChangeMap.map (fun p => p.2)
  -- scenario 1: buy (native spent, token received)
  let totalSolSpent :=
    (solSpentChanges.map (fun c => jsAbs (chVal c.change))).sum
  let tokensBought := aggs.filter (fun a => 0 < a.totalChange)
  let tokenBought : Option AggTok :=
    match tokensBought with
    | [] => none
    | h :: t => some (jsReduceMax (fun a => a.totalChange) h (h :: t))
  match tokenBought with
  | some tb =>
    if 0 < totalSolSpent then
      let h1 : Option String :=
        if ¬ e4.isEmpty then
          let tokenBoughtChanges :=
            e4.filter (fun c => c.mint = tb.mint ∧ 0 < c.change)
          match tokenBoughtChanges with
          | [] => none
          | h :: _ =>
            let signerTokenChange := tokenBoughtChanges.find? (fun c =>
              (solChanges.find? (fun sc =>
                sc.account = c.owner ∧ sc.isSigner)).isSome)
            jOrElse (signerTokenChange.map (fun c => c.owner)) (some h.owner)
        else none
      let h2 :=
        if jFalsy h1 then
          match solChanges.find? (fun c => c.isSigner) with
          | some c => some c.account
          | none => h1
        else h1
      let h3 :=
        if jFalsy h2 then
          jOr3 ((solSpentChanges.find? (fun c => c.isSigner)).map
                  (fun c => c.account))
               (solSpentChanges.head?.map (fun c => c.account))
        else h2
      .ok (some
        { type := "buy"
          soldToken := ⟨SOL_MINT, "SOL", totalSolSpent, 9⟩
          boughtToken := ⟨tb.mint, "Token", tb.totalChange, tb.decimals⟩
          price := totalSolSpent / tb.totalChange
          holderAddress := h3 })
    else
      analyzeSellSide solChanges aggs e4 solReceivedChanges
  | none => analyzeSellSide solChanges aggs e4 solReceivedChanges
where
  /-- Scenario 2 of `analyzeSOLTokenTrade`: sell (token spent, native
  received), including the holder-address fallback chain whose last step
  dereferences the undefined `transaction` identifier. -/
  analyzeSellSide (solChanges : List SolChange) (aggs : List AggTok)
      (e4 : List TokenChange) (solReceivedChanges : List SolChange) :
      JS (Option TradeInfo) :=
    let totalSolReceived :=
      (solReceivedChanges.map (fun c => chVal c.change)).sum
    let tokensSold := aggs.filter (fun a => a.totalChange < 0)
    let tokenSold : Option AggTok :=
      match tokensSold with
      | [] => none
      | h :: t => some (jsReduceMax (fun a => jsAbs a.totalChange) h (h :: t))
    match tokenSold with
    | some ts =>
      if 0 < totalSolReceived then
        let h1 : Option String :=
          if ¬ e4.isEmpty then
            let tokenSoldChanges :=
              e4.filter (fun c => c.mint = ts.mint ∧ c.change < 0)
            match tokenSoldChanges with
            | [] => none
            | h :: _ =>
              let signerTokenChange := tokenSoldChanges.find? (fun c =>
                (solChanges.find? (fun sc =>
                  sc.account = c.owner ∧ sc.isSigner)).isSome)
              jOrElse (signerTokenChange.map (fun c => c.owner)) (some h.owner)
          else none
        let h2 :=
          if jFalsy h1 then
            match solChanges.find? (fun c => c.isSigner) with
            | some c => some c.account
            | none => h1
          else h1
        let h3 :=
          if jFalsy h2 then
            jOr3 ((solReceivedChanges.find? (fun c => c.isSigner)).map
                    (fun c => c.account))
                 (solReceivedChanges.head?.map (fun c => c.account))
          else h2
        if jFalsy h3 then
          -- `transaction.transaction?.message?.accountKeys`: ReferenceError
          .error ()
        else
          .ok (some
            { type := "sell"
              soldToken := ⟨ts.mint, "Token", jsAbs ts.totalChange, ts.decimals⟩
              boughtToken := ⟨SOL_MINT, "SOL", totalSolReceived, 9⟩
              price := totalSolReceived / jsAbs ts.totalChange
              holderAddress := jOrElse h3 none })
      else
        .ok none
    | none => .ok none

/-! ## Pump.fun parser -/

/-- `this.DEX_PROGRAMS.PUMP_FUN[0]`. -/
def PUMP_FUN_PROGRAM_ID : String := "pAMMBay6oceH9fJKBRHGP5D4bD4sWpmSwMn52FMfXEA"

/-- `logMessages.join(' ').toLowerCase()`. -/
def allLogTextOf (meta : Option Meta) : String :=
  jsToLower (String.intercalate " " ((meta.bind Meta.logMessages).getD []))

/-- Pump.fun instructions among the top-level instructions. -/
def mainPumpInstrs (instrs : List Instr)
    (accountKeys : Option (List JAccount)) : List Instr :=
  instrs.filter (fun ix => getProgramId ix accountKeys = some PUMP_FUN_PROGRAM_ID)

/-- Pump.fun instructions collected from the inner instruction groups. -/
def innerPumpInstrs (meta : Option Meta)
    (accountKeys : Option (List JAccount)) : List Instr :=
  ((meta.bind Meta.innerInstructions).getD []).foldl (fun acc inner =>
    match inner.instructions with
    | some l =>
      acc ++ l.filter (fun ix =>
        getProgramId ix accountKeys = some PUMP_FUN_PROGRAM_ID)
    | none => acc) []

/-- `parsePumpFunTransaction(transaction)`: collects Pump.fun instructions
from the top level and from inner instruction groups, bails out unless one
is present or the program id appears in the log text, runs
`analyzeSOLTokenTrade`, and then — when the log text explicitly names the
instruction direction and it contradicts the analyzed direction — swaps
the sold and bought tokens, flips the type, and recomputes the price from
the swapped fields. -/
def parsePumpFunTransaction (tx : Tx) : JS (Option TradeInfo) := do
  let meta := tx.meta
  let txData ← jsGet tx.transaction
  let message ← jsGet txData.message
  let accountKeys := message.accountKeys
  let instrs ← jsGet message.instructions
  let mainPumpFunInstructions := mainPumpInstrs instrs accountKeys
  let innerPumpFunInstructions := innerPumpInstrs meta accountKeys
  let logText := allLogTextOf meta
  let hasPumpFunInLogs := jsIncludes logText (jsToLower PUMP_FUN_PROGRAM_ID)
  if mainPumpFunInstructions.isEmpty ∧ innerPumpFunInstructions.isEmpty ∧
      ¬ hasPumpFunInLogs then
    return none
  else
    let isSellFromLog := jsIncludes logText "instruction: sell" ∨
      jsIncludes logText "instruction sell"
    let isBuyFromLog := jsIncludes logText "instruction: buy" ∨
      jsIncludes logText "instruction buy"
    let tokenChanges := parseTokenBalanceChanges meta
    let solChanges ← parseSOLBalanceChanges tx
    let tradeInfo ← analyzeSOLTokenTrade tokenChanges solChanges
    match tradeInfo with
    | none => return none
    | some t0 =>
      let t1 :=
        if isSellFromLog ∧ t0.type = "buy" then
          { t0 with
            soldToken := t0.boughtToken
            boughtToken := t0.soldToken
            type := "sell"
            price := t0.soldToken.amount / t0.boughtToken.amount }
        else if isBuyFromLog ∧ t0.type = "sell" then
          { t0 with
            soldToken := t0.boughtToken
            boughtToken := t0.soldToken
            type := "buy"
            price := t0.soldToken.amount / t0.boughtToken.amount }
        else t0
      return some
        { t1 with
          dex := some "pump_fun_amm"
          source := some "pump_fun_parser"
          platform := some "pump.fun"
          instrCount := some (mainPumpFunInstructions.length +
            innerPumpFunInstructions.length)
          routed := some (0 < innerPumpFunInstructions.length) }

/-! ## Generic parser -/

/-- The liquidity-operation keywords checked by the generic parser. -/
def liquidityOperations : List String :=
  ["rebalance_liquidity", "rebalance", "add_liquidity", "remove_liquidity",
   "deposit", "withdraw"]

/-- `liquidityOperations.some(op => s.includes(op.toLowerCase()))`
(the keywords are already lowercase). -/
def hasLiquidityKeyword (s : String) : Bool :=
  liquidityOperations.any (fun op => jsIncludes s op)

/-- `(ix.parsed.type || '').toLowerCase()` contains a liquidity keyword,
for an instruction that carries a `parsed` object. -/
def instrHasLiquidity (ix : Instr) : Bool :=
  match ix.parsed with
  | some t => liquidityOperations.any (fun op => jsIncludes (jsToLower t) op)
  | none => false

/-- `sold.mint === SOL_MINT ? 'SOL' : 'Token'`. -/
def symbolOf (mint : String) : String :=
  if mint = SOL_MINT then "SOL" else "Token"

/-- One element of the `allChanges` list built by the generic parser
(`type` is the literal tag `'token'` or `'sol'`; the native entries carry
the full `SOL_MINT` address as their mint). -/
structure GenChange where
  gtype : String
  mint : String
  amount : Option ℚ
  decimals : ℕ
deriving Repr, DecidableEq

/-- `parseGenericTransaction(transaction, dex)`: first bails out with
`null` on any liquidity operation (log keyword or parsed instruction type,
top-level or inner); then extracts balance changes, resolves a holder
address, tries the signer-owned token-to-token swap pattern, then
`analyzeSOLTokenTrade`, then the single-pair rule, and finally the
multiple-changes representative pair, which is only returned when the
`maxSold`/`maxBought` guard comparing `mint` against the literal string
`'SOL'` matches. -/
def parseGenericTransaction (tx : Tx) (dex : String) : JS (Option TradeInfo) := do
  let meta := tx.meta
  let txData := tx.transaction
  let instructions := ((txData.bind TxData.message).bind
    Message.instructions).getD []
  let innerInstructions := (meta.bind Meta.innerInstructions).getD []
  let allLogText := allLogTextOf meta
  let hasLiquidityOperation := hasLiquidityKeyword allLogText
  let hasLiquidityInstruction := instructions.any instrHasLiquidity
  let hasLiquidityInnerInstruction := innerInstructions.any (fun inner =>
    match inner.instructions with
    | some l => l.any instrHasLiquidity
    | none => false)
  if hasLiquidityOperation ∨ hasLiquidityInstruction ∨
      hasLiquidityInnerInstruction then
    return none
  else
    let tokenChanges := parseTokenBalanceChanges meta
    let solChanges ← parseSOLBalanceChanges tx
    let holderAddress : Option String :=
      match solChanges.find? (fun c => c.isSigner) with
      | some c => some c.account
      | none =>
        match solChanges.head? with
        | some c => some c.account
        | none =>
          match (((txData.bind TxData.message).bind
              Message.accountKeys).getD []).find? JAccount.isObjSigner with
          | some a => some a.addr
          | none => none
    let significantTokenChanges := tokenChanges.filter (fun c =>
      if c.mint = SOL_MINT ∨ c.mint = "SOL" then false
      else (1 : ℚ)/1000000 < jsAbs c.change)
    let signerSolChanges := solChanges.filter (fun c => c.isSigner)
    let signerAccounts := signerSolChanges.map (fun c => c.account)
    let userTokenChanges :=
      significantTokenChanges.filter (fun c => signerAccounts.contains c.owner)
    let effectiveTokenChanges :=
      if userTokenChanges.isEmpty then
        let byOwner : JMap (List TokenChange) :=
          significantTokenChanges.foldl (fun acc c =>
            match jmGet acc c.owner with
            | some l => jmSet acc c.owner (l ++ [c])
            | none => jmSet acc c.owner [c]) []
        let pick := byOwner.foldl
          (fun (best : Option (String × List TokenChange) × ℚ) p =>
            let tot := (p.2.map (fun c => jsAbs c.change)).sum
            if best.2 < tot then (some p, tot) else best) (none, 0)
        match pick.1 with
        | some p => if p.1 = "" then userTokenChanges else p.2
        | none => userTokenChanges
      else userTokenChanges
    let tokenSold := effectiveTokenChanges.filter (fun c => c.change < 0)
    let tokenBought := effectiveTokenChanges.filter (fun c => 0 < c.change)
    let swapResult : Option TradeInfo :=
      match tokenSold, tokenBought with
      | hs :: ts, hb :: tb =>
        let maxSold := jsReduceMax (fun c => jsAbs c.change) hs (hs :: ts)
        let maxBought := jsReduceMax (fun c => jsAbs c.change) hb (hb :: tb)
        if maxSold.mint ≠ SOL_MINT ∧ maxBought.mint ≠ SOL_MINT then
          let userAddress := jOrElse
            (effectiveTokenChanges.head?.map (fun c => c.owner)) holderAddress
          some
            { type := "swap"
              soldToken := ⟨maxSold.mint, "Token", jsAbs maxSold.change,
                maxSold.decimals⟩
              boughtToken := ⟨maxBought.mint, "Token", maxBought.change,
                maxBought.decimals⟩
              price := maxBought.change / jsAbs maxSold.change
              dex := some dex
              source := some "generic_parser"
              note := some "代币到代币交换（通过 SOL 中转）"
              holderAddress := jOrElse userAddress holderAddress }
        else none
      | _, _ => none
    match swapResult with
    | some r => return some r
    | none =>
      let solTokenTrade ← analyzeSOLTokenTrade tokenChanges solChanges
      match solTokenTrade with
      | some t =>
        let t' := if jFalsy t.holderAddress then
            { t with holderAddress := holderAddress }
          else t
        return some { t' with dex := some dex, source := some "generic_parser" }
      | none =>
        let allChanges : List GenChange :=
          tokenChanges.map (fun c => ⟨"token", c.mint, some c.change,
            c.decimals⟩) ++
          solChanges.map (fun c => ⟨"sol", SOL_MINT, c.change, 9⟩)
        let significantChanges :=
          allChanges.filter (fun g => chAbsGt g.amount ((1 : ℚ)/10000))
        let sold := significantChanges.filter (fun g => chNeg g.amount)
        let bought := significantChanges.filter (fun g => chPos g.amount)
        match sold, bought with
        | [s0], [b0] =>
          return some
            { type := inferTradeType s0.mint b0.mint
              soldToken := ⟨s0.mint, symbolOf s0.mint, jsAbs (chVal s0.amount),
                s0.decimals⟩
              boughtToken := ⟨b0.mint, symbolOf b0.mint, chVal b0.amount,
                b0.decimals⟩
              price := calculatePrice (chVal s0.amount) (chVal b0.amount)
              dex := some dex
              source := some "generic_parser"
              holderAddress := holderAddress }
        | s0 :: srest, b0 :: brest =>
          let maxSold := jsReduceMax (fun g => jsAbs (chVal g.amount)) s0 srest
          let maxBought :=
            jsReduceMax (fun g => jsAbs (chVal g.amount)) b0 brest
          let isSOLTokenTrade :=
            (maxSold.mint = "SOL" ∧ maxBought.gtype = "token") ∨
            (maxSold.gtype = "token" ∧ maxBought.mint = "SOL")
          if isSOLTokenTrade then
            return some
              { type := inferTradeType maxSold.mint maxBought.mint
                soldToken := ⟨maxSold.mint, symbolOf maxSold.mint,
                  jsAbs (chVal maxSold.amount), maxSold.decimals⟩
                boughtToken := ⟨maxBought.mint, symbolOf maxBought.mint,
                  chVal maxBought.amount, maxBought.decimals⟩
                price := calculatePrice (chVal maxSold.amount)
                  (chVal maxBought.amount)
                dex := some dex
                source := some "generic_parser"
                note := some "交易包含多个变化，已提取主要交易对"
                holderAddress := holderAddress }
          else
            return none
        | _, _ => return none

/-! ## Batch pipeline (`parseMultipleTradeInfo` / `parseTradeInfoInternal`)

The RPC connection and the already-embedded single-transaction parser are
reached through a `BatchWorld` of collaborator functions, so the pipeline
skeleton — batching, the bulk fetch, the per-batch `try/catch` with its
individual-fetch fallback, and result-map insertion — can be stated as a
pure function of that world. -/

/-- The option object handed to `parser.parseTrade` (only the fields the
pipeline sets are modelled; `commitment` and the version cap are
pass-through strings). -/
structure ParseOptions where
  useJupiterAPI : Bool
  useCache : Bool
deriving Repr, DecidableEq

/-- The `TOKEN_SYMBOL_MAP` table of the batch module. -/
def TOKEN_SYMBOL_MAP : JMap String :=
  [("EPjFWdd5AufqSSqeM2qN1xzybapC8G4wEGGkZwyTDt1v", "USDC"),
   ("FkimKUQhh72rJKxSD6awD7KUdf6yYwhz2weBrRgvSYbX", "USDC"),
   ("Es9vMFrzaCERmJfrF4H2FYD4KCoNkY11McCe8BenwNYB", "USDT"),
   ("So11111111111111111111111111111111111111112", "SOL")]

/-- `getTokenSymbol(mint, defaultSymbol)` of the batch module. -/
def getTokenSymbol (mint defaultSymbol : Option String) : String :=
  if jFalsy mint then
    match jOrElse defaultSymbol (some "Unknown") with
    | some s => s
    | none => "Unknown"
  else
    let m := mint.getD ""
    if m = SOL_MINT ∨ m = "SOL" then "SOL"
    else
      match jmGet TOKEN_SYMBOL_MAP m with
      | some s => s
      | none =>
        if ¬ jFalsy defaultSymbol ∧ defaultSymbol ≠ some "Token" ∧
            defaultSymbol ≠ some "Unknown" then
          defaultSymbol.getD ""
        else "Unknown"

/-- The simplified projection built by the batch module's result objects:
same trade data with both token symbols normalized through
`getTokenSymbol`. -/
def toLite (t : TradeInfo) : TradeInfo :=
  { t with
    soldToken := { t.soldToken with
      symbol := getTokenSymbol (some t.soldToken.mint)
        (some t.soldToken.symbol) }
    boughtToken := { t.boughtToken with
      symbol := getTokenSymbol (some t.boughtToken.mint)
        (some t.boughtToken.symbol) } }

/-- External collaborators of the batch pipeline:
`fetchBatch` is `connection.getParsedTransactions` (throwing modelled as
`.error`, misses as `none` entries), `parseTrade` is
`parser.parseTrade(signature, options)` and `syncParse` is
`parseTradeFromTransactionSync` (the identify-DEX dispatch over the
parsers embedded above; opaque here, with parse failures as `none`). -/
structure BatchWorld where
  fetchBatch : List String → JS (List (Option Tx))
  parseTrade : String → ParseOptions → JS (Option TradeInfo)
  syncParse : String → Tx → Option TradeInfo

/-- `parseTradeInfoInternal(signature)`: calls `parser.parseTrade` with
`useJupiterAPI: false` and `useCache: true`, returns `null` when the
parser returns nothing, projects the result (dropping `holderAddress`),
and swallows any thrown error into `null`. -/
def parseTradeInfoInternal (w : BatchWorld) (sig : String) :
    Option TradeInfo :=
  match w.parseTrade sig ⟨false, true⟩ with
  | .error _ => none
  | .ok none => none
  | .ok (some t) => some { toLite t with holderAddress := none }

/-- One iteration of the batch loop of `parseMultipleTradeInfo`: bulk-fetch
the batch; on success parse each fetched transaction synchronously
(missing transactions and parse failures are skipped); on a thrown fetch
(`catch`) fall back to `parseTradeInfoInternal` per signature, inserting
only the successful ones. -/
def processBatch (w : BatchWorld) (batch : List String)
    (acc : JMap TradeInfo) : JMap TradeInfo :=
  match w.fetchBatch batch with
  | .ok transactions =>
    if transactions.isEmpty then acc
    else
      batch.enum.foldl (fun a p =>
        match (transactions[p.1]?).bind id with
        | none => a
        | some tx =>
          match w.syncParse p.2 tx with
          | some t => jmSet a p.2 t
          | none => a) acc
  | .error _ =>
    batch.foldl (fun a s =>
      match parseTradeInfoInternal w s with
      | some t => jmSet a s t
      | none => a) acc

/-- The `for (let i = 0; i < signatures.length; i += batchSize)` loop,
with fuel (one unit per batch suffices: the signature count). For a
positive batch size this is exactly the source loop. -/
def batchLoop (w : BatchWorld) (bs : ℕ) :
    ℕ → List String → JMap TradeInfo → JMap TradeInfo
  | 0, _, acc => acc
  | _, [], acc => acc
  | fuel + 1, sigs, acc =>
    batchLoop w bs fuel (sigs.drop bs) (processBatch w (sigs.take bs) acc)

/-- `parseMultipleTradeInfo(signatures, concurrency = 50)`: empty input
short-circuits; batch size is the whole input for at most 50 signatures
and `Math.min(concurrency, 50)` otherwise. -/
def parseMultipleTradeInfo (w : BatchWorld) (sigs : List String)
    (concurrency : ℕ := 50) : JMap TradeInfo :=
  if sigs.isEmpty then []
  else
    let batchSize := if sigs.length ≤ 50 then sigs.length
      else min concurrency 50
    batchLoop w batchSize sigs.length sigs []

/-! ## Reference semantics of cached outcomes

JS objects are heap references; storing a trade outcome in the cache and
returning it from `parseTrade`'s cache hit (`return cached;`) hands out
the stored reference itself. The heap is a list of outcomes and a
reference is an index into it. -/

/-- A JS object reference. -/
abbrev ORef := ℕ

/-- The heap of trade-outcome objects. -/
abbrev Heap := List TradeInfo

/-- Reading the object behind a reference. -/
def deref (h : Heap) (r : ORef) : Option TradeInfo := h[r]?

/-- Mutating a field of the object behind a reference (e.g.
`tradeInfo.signature = signature` or any caller-side assignment on an
outcome obtained from the cache). -/
def heapWrite (h : Heap) (r : ORef) (t : TradeInfo) : Heap := h.set r t

/-! ## Concrete transactions and worlds used by the closed theorems -/

/-- A trade outcome as stored in the cache (used to exhibit reference
sharing). -/
def c9buy : TradeInfo :=
  { type := "buy"
    soldToken := ⟨SOL_MINT, "SOL", 1, 9⟩
    boughtToken := ⟨"MINTC9", "Token", 5, 6⟩
    price := 1/5
    holderAddress := some "A" }

/-- The same outcome after a caller-side mutation of its `type` field. -/
def c9sell : TradeInfo := { c9buy with type := "sell" }

/-- A trade outcome produced by the external-API-enabled classification
path. -/
def c4trade : TradeInfo :=
  { type := "buy"
    soldToken := ⟨SOL_MINT, "SOL", 1, 9⟩
    boughtToken := ⟨"MINTC4", "Token", 4, 6⟩
    price := 1/4
    holderAddress := some "W" }

/-- A collaborator world whose bulk fetch always throws and whose
per-signature classification succeeds exactly when the external-API path
is enabled. -/
def c4world : BatchWorld :=
  { fetchBatch := fun _ => .error ()
    parseTrade := fun _ opts =>
      if opts.useJupiterAPI then .ok (some c4trade) else .ok none
    syncParse := fun _ _ => none }

/-- A collaborator world whose bulk fetch always throws and whose
per-signature classification always succeeds, regardless of options. -/
def c4world2 : BatchWorld :=
  { fetchBatch := fun _ => .error ()
    parseTrade := fun _ _ => .ok (some c4trade)
    syncParse := fun _ _ => none }

/-- A transaction whose only balance movements are native: −2 SOL, −1 SOL
and +2.5 SOL across three plain accounts (first account is the signer). -/
def c7tx : Tx :=
  { meta := some
      { preBalances := some [3000000000, 1000000000, 0]
        postBalances := some [1000000000, 0, 2500000000] }
    transaction := some
      { message := some
          { accountKeys := some [.str "A", .str "B", .str "C"]
            header := some { numRequiredSignatures := some 1 } } } }

/-- The message of `c3tx`: two plain accounts, the first a signer. -/
def c3msg : Message :=
  { accountKeys := some [.str "A", .str "B"]
    instructions := some []
    header := some { numRequiredSignatures := some 1 } }

/-- A Pump.fun sell whose balance deltas alone look like a buy: the signer
spends 1 SOL and receives 5 `MINTP`, while the log text says
`Instruction: Sell` and names the Pump.fun program id. -/
def c3tx : Tx :=
  { meta := some
      { logMessages := some
          ["Program log: Instruction: Sell",
           "Program pAMMBay6oceH9fJKBRHGP5D4bD4sWpmSwMn52FMfXEA invoke"]
        preBalances := some [2000000000, 0]
        postBalances := some [1000000000, 1000000000]
        preTokenBalances := some []
        postTokenBalances := some
          [{ owner := some "A", mint := some "MINTP",
             uiTokenAmount := some { uiAmount := some 5, decimals := some 6 } }] }
    transaction := some { message := some c3msg } }

/-- The native deltas of `c3tx`. -/
def c3sol : List SolChange :=
  [{ account := "A", preBalance := some 2, postBalance := 1,
     change := some (-1), isSigner := true, isWritable := false },
   { account := "B", preBalance := some 0, postBalance := 1,
     change := some 1, isSigner := false, isWritable := false }]

/-- The buy outcome `analyzeSOLTokenTrade` infers for `c3tx`. -/
def c3buy : TradeInfo :=
  { type := "buy"
    soldToken := ⟨SOL_MINT, "SOL", 1, 9⟩
    boughtToken := ⟨"MINTP", "Token", 5, 6⟩
    price := 1/5
    holderAddress := some "A" }

/-- The message of `c5tx`: one plain signer account. -/
def c5msg : Message :=
  { accountKeys := some [.str "A"]
    header := some { numRequiredSignatures := some 1 } }

/-- A transaction whose single native balance difference is 50 lamports —
far below the claimed 100,000-lamport threshold. -/
def c5tx : Tx :=
  { meta := some { preBalances := some [100], postBalances := some [150] }
    transaction := some { message := some c5msg } }

/-- A transaction carrying `postBalances` but no `preBalances`: the native
extractor's loop indexes into the absent array and throws. -/
def c6tx : Tx :=
  { meta := some { postBalances := some [100] }
    transaction := some { message := some {} } }

/-- A transaction whose log text contains the liquidity keyword
`deposit`. -/
def c10tx : Tx :=
  { meta := some
      { logMessages := some ["Program log: Instruction: Deposit"] }
    transaction := none }

/-! ## Helper lemmas -/

theorem SimpleCache.foldl_set_fresh {α : Type} (v : α) (now : ℤ) :
    ∀ (l : List String) (c : SimpleCache α), l.Nodup →
      (∀ s ∈ l, s ∉ c.keys) → c.cache.length + l.length ≤ c.maxSize →
      (l.foldl (fun c s => c.set s v now) c).cache
        = c.cache ++ l.map (fun s => ⟨s, v, now⟩) ∧
      (l.foldl (fun c s => c.set s v now) c).maxSize = c.maxSize
  | [], c, _, _, _ => by simp
  | s :: t, c, hnd, hfresh, hcap => by
    have hlt : ¬ (c.maxSize ≤ c.cache.length) := by
      simp at hcap; omega
    have hany : c.cache.any (fun i => i.key = s) = false := by
      rw [List.any_eq_false]
      intro i hi
      simp only [decide_eq_true_eq]
      intro hk
      exact hfresh s (by simp) (hk ▸ List.mem_map_of_mem (fun i => i.key) hi)
    have hset : (c.set s v now).cache = c.cache ++ [⟨s, v, now⟩] := by
      simp [SimpleCache.set, hlt, hany]
    have hms : (c.set s v now).maxSize = c.maxSize := by
      simp [SimpleCache.set]
    have hrec := SimpleCache.foldl_set_fresh v now t (c.set s v now)
      hnd.of_cons
      (by
        intro s' hs'
        simp only [SimpleCache.keys, hset, List.map_append, List.mem_append]
        rintro (h | h)
        · exact hfresh s' (List.mem_cons_of_mem _ hs') h
        · simp at h
          exact (List.nodup_cons.mp hnd).1 (h ▸ hs'))
      (by simp [hset, hms]; simp at hcap; omega)
    refine ⟨?_, ?_⟩
    · simp only [List.foldl_cons]
      rw [hrec.1, hset]
      simp
    · simp only [List.foldl_cons]
      rw [hrec.2, hms]

/-! ## Claim theorems -/

/-- C2 counterexample: with a sold amount of `0`, `calculatePrice` returns
the number `0`, not `null` (its return type has no `null` at all), so the
claim "when the sold amount is 0 the price is null, not 0" fails. -/
theorem C2_counterexample : calculatePrice 0 5 = 0 := by
  norm_num [calculatePrice, jsAbs]

/-- C2 amended: `calculatePrice` never yields `null`: it returns the
literal `0` when the absolute sold amount is `0` and `bought / |sold|`
otherwise, so it never divides by zero (no infinity), and for a
nonnegative bought amount the result is nonnegative (never negative). -/
theorem C2_theorem (s b : ℚ) :
    calculatePrice 0 b = 0 ∧
    (s ≠ 0 → calculatePrice s b = b / jsAbs s) ∧
    (0 ≤ b → 0 ≤ calculatePrice s b) := by
  refine ⟨?_, ?_, ?_⟩
  · norm_num [calculatePrice, jsAbs]
  · intro hs
    have h : jsAbs s ≠ 0 := by
      rw [jsAbs_eq_abs]; exact abs_ne_zero.mpr hs
    simp [calculatePrice, h]
  · intro hb
    unfold calculatePrice
    by_cases h : jsAbs s = 0
    · simp [h]
    · simp only [h, if_false]
      apply div_nonneg hb
      rw [jsAbs_eq_abs]
      positivity

/-- C2 witness: the amended statement evaluated at sold 2, bought 3. -/
theorem C2_witness :
    calculatePrice 2 3 = 3 / jsAbs 2 ∧ 0 ≤ calculatePrice 2 3 :=
  ⟨(C2_theorem 2 3).2.1 (by norm_num), (C2_theorem 2 3).2.2 (by norm_num)⟩

/-- C8: inserting `N + 1` distinct signatures into an empty cache of
capacity `N ≥ 1` leaves exactly `N` entries, with the first-inserted
signature evicted and the remaining keys in insertion order. -/
theorem C8_theorem {α : Type} (N : ℕ) (hN : 1 ≤ N) (sigs : List String)
    (hlen : sigs.length = N + 1) (hnd : sigs.Nodup) (v : α) (now ttl : ℤ) :
    (sigs.foldl (fun c s => c.set s v now)
        (SimpleCache.empty α N ttl)).keys = sigs.tail ∧
    (sigs.foldl (fun c s => c.set s v now)
        (SimpleCache.empty α N ttl)).cache.length = N := by
  have hne : sigs ≠ [] := by intro h; simp [h] at hlen
  set F := sigs.dropLast with hF
  set a := sigs.getLast hne with ha
  have hsplit : F ++ [a] = sigs := List.dropLast_append_getLast hne
  have hFlen : F.length = N := by
    have := congrArg List.length hsplit
    simp at this; omega
  have hFnd : F.Nodup := by
    rw [← hsplit] at hnd
    exact (List.nodup_append.mp hnd).1
  have hna : a ∉ F := by
    rw [← hsplit] at hnd
    rcases List.nodup_append.mp hnd with ⟨-, -, hdisj⟩
    intro hmem
    exact hdisj hmem (by simp)
  have hfill := SimpleCache.foldl_set_fresh v now F
    (SimpleCache.empty α N ttl) hFnd
    (by intro s _; simp [SimpleCache.keys, SimpleCache.empty])
    (by simp [SimpleCache.empty, hFlen])
  set cF := F.foldl (fun c s => c.set s v now) (SimpleCache.empty α N ttl)
    with hcF
  have hcFc : cF.cache = F.map (fun s => ⟨s, v, now⟩) := by
    have := hfill.1; simpa [SimpleCache.empty] using this
  have hcFm : cF.maxSize = N := by
    have := hfill.2; simpa [SimpleCache.empty] using this
  have hfold : sigs.foldl (fun c s => c.set s v now)
      (SimpleCache.empty α N ttl) = cF.set a v now := by
    rw [← hsplit, List.foldl_append]
    rfl
  have hFne : F ≠ [] := by
    intro h
    rw [h] at hFlen
    simp at hFlen
    omega
  obtain ⟨f0, F', hFcons⟩ := List.exists_cons_of_ne_nil hFne
  have hfull : cF.maxSize ≤ cF.cache.length := by
    rw [hcFm, hcFc]; simp [hFlen]
  have hany : (F'.map (fun s => (⟨s, v, now⟩ : CacheItem α))).any
      (fun i => i.key = a) = false := by
    rw [List.any_eq_false]
    intro i hi
    simp only [List.mem_map] at hi
    obtain ⟨s, hs, rfl⟩ := hi
    simp only [decide_eq_true_eq]
    intro hk
    exact hna (hk ▸ (hFcons ▸ List.mem_cons_of_mem _ hs))
  have hsetfinal : (cF.set a v now).cache
      = F'.map (fun s => ⟨s, v, now⟩) ++ [⟨a, v, now⟩] := by
    simp only [SimpleCache.set, hfull, if_true]
    rw [hcFc, hFcons]
    simp only [List.map_cons]
    rw [hany]
    simp
  refine ⟨?_, ?_⟩
  · rw [hfold]
    simp only [SimpleCache.keys, hsetfinal]
    rw [← hsplit, hFcons]
    simp [Function.comp_def]
  · rw [hfold]
    have hlen' : (cF.set a v now).cache.length = F'.length + 1 := by
      rw [hsetfinal]; simp
    rw [hlen']
    rw [hFcons] at hFlen
    simp at hFlen
    omega

/-- C8 witness: capacity 2, inserting "a", "b", "c" keeps exactly
["b", "c"]. -/
theorem C8_witness :
    (["a", "b", "c"].foldl (fun c s => c.set s (0 : ℕ) 0)
        (SimpleCache.empty ℕ 2 3600000)).keys = ["b", "c"] ∧
    (["a", "b", "c"].foldl (fun c s => c.set s (0 : ℕ) 0)
        (SimpleCache.empty ℕ 2 3600000)).cache.length = 2 :=
  C8_theorem 2 (by norm_num) ["a", "b", "c"] rfl (by decide) 0 0 3600000

/-- C9 counterexample: the cache hit for signature `"sig"` returns the
stored reference itself; mutating the outcome through that reference
(`c9buy` becomes `c9sell`) changes what the next read of the same
signature observes, so the returned outcome is not a copy. -/
theorem C9_counterexample :
    (SimpleCache.get (⟨[⟨"sig", (0 : ORef), 0⟩], 500, 3600000⟩ :
        SimpleCache ORef) "sig" 0).1 = some 0 ∧
    deref [c9buy] 0 = some c9buy ∧
    deref (heapWrite [c9buy] 0 c9sell) 0 = some c9sell ∧
    c9sell ≠ c9buy := by
  refine ⟨rfl, rfl, rfl, ?_⟩
  intro h
  have := congrArg TradeInfo.type h
  simp [c9sell, c9buy] at this

/-- C9 amended: a cache hit returns exactly the reference stored in the
cache entry (no copy is made), and a heap mutation through that reference
is observed by any later dereference. -/
theorem C9_theorem (c : SimpleCache ORef) (k : String) (now : ℤ) (r : ORef)
    (c' : SimpleCache ORef) (h : Heap) (t : TradeInfo)
    (hget : c.get k now = (some r, c')) (hr : r < h.length) :
    (∃ item ∈ c.cache, item.key = k ∧ item.value = r) ∧
    deref (heapWrite h r t) r = some t := by
  constructor
  · unfold SimpleCache.get at hget
    cases hfind : c.cache.find? (fun i => i.key = k) with
    | none => rw [hfind] at hget; simp at hget
    | some item =>
      rw [hfind] at hget
      by_cases hexp : c.ttl < now - item.timestamp
      · simp [hexp] at hget
      · simp only [hexp, if_false] at hget
        have hmem := List.mem_of_find?_eq_some hfind
        have hkey := List.find?_some hfind
        simp only [decide_eq_true_eq] at hkey
        have hval : item.value = r := by
          have := congrArg Prod.fst hget
          simpa using this
        exact ⟨item, hmem, hkey, hval⟩
  · unfold deref heapWrite
    simp [List.getElem?_set, hr]

/-- C9 witness: the amended statement at the concrete one-entry cache and
one-object heap. -/
theorem C9_witness :
    (∃ item ∈ ([⟨"sig", (0 : ORef), 0⟩] :
        List (CacheItem ORef)), item.key = "sig" ∧ item.value = 0) ∧
    deref (heapWrite [c9buy] 0 c9sell) 0 = some c9sell :=
  C9_theorem ⟨[⟨"sig", 0, 0⟩], 500, 3600000⟩ "sig" 0 0
    ⟨[⟨"sig", 0, 0⟩], 500, 3600000⟩ [c9buy] c9sell rfl (by norm_num)

/-- C1 counterexample: a wallet whose only changes are −0.00005 native and
+1 token (both strictly positive magnitudes, so the claim as stated
applies) is classified as no outcome at all, because the native change is
below the classifier's 0.0001 dust threshold — not as a buy. -/
theorem C1_counterexample :
    analyzeSOLTokenTrade [⟨"MINT1", "A", 0, 1, 1, 6⟩]
      [⟨"A", some 1, 1, some (-(1/20000)), true, false⟩] = .ok none := by
  set_option maxHeartbeats 1000000 in
  norm_num [analyzeSOLTokenTrade, analyzeSOLTokenTrade.analyzeSellSide,
    chAbsGt, chNeg, chPos, chVal, jsAbs, jsReduceMax, jmGet, jmSet, jmHas,
    jOrElse, jOr3, jFalsy, SOL_MINT, List.filter]

/-- C1 amended: when the acting wallet's only changes are −X native and +Y
of one token, with X above the 0.0001 native dust threshold, Y above the
0.000001 token dust threshold, and the token's mint neither the native
mint nor the literal string `'SOL'`, the classifier returns a buy whose
sold side is the native mint with amount X, whose bought amount is Y, and
whose price is X / Y. -/
theorem C1_theorem (X Y : ℚ) (mint acc : String) (dec : ℕ)
    (preA postA preS postS : ℚ) (sgn w : Bool)
    (hX : (1 : ℚ)/10000 < X) (hY : (1 : ℚ)/1000000 < Y)
    (hm1 : mint ≠ SOL_MINT) (hm2 : mint ≠ "SOL") (ha : acc ≠ "") :
    analyzeSOLTokenTrade [⟨mint, acc, preA, postA, Y, dec⟩]
      [⟨acc, some preS, postS, some (-X), sgn, w⟩] =
    .ok (some
      { type := "buy"
        soldToken := ⟨SOL_MINT, "SOL", X, 9⟩
        boughtToken := ⟨mint, "Token", Y, dec⟩
        price := X / Y
        holderAddress := some acc }) := by
  have hX0 : (0 : ℚ) < X := lt_trans (by norm_num) hX
  have hY0 : (0 : ℚ) < Y := lt_trans (by norm_num) hY
  have hXn : -X < 0 := neg_neg_iff_pos.mpr hX0
  have hYnn : ¬ (Y < 0) := not_lt.mpr hY0.le
  have hXnn : ¬ (X < 0) := not_lt.mpr hX0.le
  set_option maxHeartbeats 1000000 in
  cases sgn <;>
    norm_num [analyzeSOLTokenTrade, analyzeSOLTokenTrade.analyzeSellSide,
      chAbsGt, chNeg, chPos, chVal, jsAbs, jsReduceMax, jmGet, jmSet, jmHas,
      jOrElse, jOr3, jFalsy, List.filter, hXn, hYnn, hXnn, hX, hY, hX0, hY0,
      hm1, hm2, ha]

/-- `Except.ok a >>= f` reduces to `f a` in the `JS` monad. -/
theorem js_bind_ok {α β : Type} (a : α) (f : α → JS β) :
    (Except.ok a >>= f) = f a := rfl

/-- `pure` in the `JS` monad is `Except.ok`. -/
theorem js_pure {α : Type} (a : α) : (pure a : JS α) = .ok a := rfl

/-- With `preBalances` present, one `solStep` appends an entry exactly when
the pre and post lamports at that index differ. -/
theorem solStep_eq (message : Message) (m : Meta) (pres : List ℤ)
    (hm : m.preBalances = some pres) (acc : List SolChange) (ib : ℕ × ℤ) :
    solStep message m acc ib
      = .ok (if pres[ib.1]? = some ib.2 then acc
          else acc ++ [solEntryFor message m ib.1 ib.2 pres[ib.1]?]) := by
  unfold solStep
  rw [hm]
  simp only [jsGet, js_bind_ok]
  by_cases h : pres[ib.1]? = some ib.2 <;> simp [h, js_pure]

/-- The `postBalances` loop collects exactly the differing positions. -/
theorem solStep_foldlM (message : Message) (m : Meta) (pres : List ℤ)
    (hm : m.preBalances = some pres) :
    ∀ (L : List (ℕ × ℤ)) (acc : List SolChange),
      L.foldlM (solStep message m) acc
        = .ok (acc ++ L.filterMap (fun ib =>
            if pres[ib.1]? = some ib.2 then none
            else some (solEntryFor message m ib.1 ib.2 pres[ib.1]?)))
  | [], acc => by simp [js_pure]
  | ib :: L, acc => by
    rw [List.foldlM_cons, solStep_eq message m pres hm, js_bind_ok]
    by_cases h : pres[ib.1]? = some ib.2
    · simp only [h, if_true, List.filterMap_cons]
      simp [solStep_foldlM message m pres hm L acc, h]
    · simp only [h, if_false, List.filterMap_cons]
      simp [solStep_foldlM message m pres hm L
        (acc ++ [solEntryFor message m ib.1 ib.2 pres[ib.1]?]), h]

/-- C5 amended: on a well-formed transaction the native extractor emits an
entry for position `i` exactly when `postBalances[i]` differs from
`preBalances[i]` — any nonzero difference, with no 100,000-lamport dust
threshold. -/
theorem C5_theorem (m0 : Meta) (msg : Message) (pres posts : List ℤ) :
    parseSOLBalanceChanges
      { meta :=
          some { m0 with
            preBalances := some pres
            postBalances := some posts }
        transaction := some { message := some msg } }
      = .ok (posts.enum.filterMap (fun ib =>
          if pres[ib.1]? = some ib.2 then none
          else some (solEntryFor msg
            { m0 with
              preBalances := some pres
              postBalances := some posts }
            ib.1 ib.2 pres[ib.1]?))) := by
  unfold parseSOLBalanceChanges
  simp only [jsGet, js_bind_ok]
  rw [solStep_foldlM msg _ pres rfl]
  simp

/-- C5 counterexample: a 50-lamport difference — well under the claimed
100,000-lamport threshold — still produces a native delta entry. -/
theorem C5_counterexample :
    ((150 : ℤ) - 100 ≤ 100000) ∧
    parseSOLBalanceChanges c5tx
      = .ok [{ account := "A", preBalance := some (100/1000000000),
               postBalance := 150/1000000000, change := some (50/1000000000),
               isSigner := true, isWritable := false }] := by
  constructor
  · norm_num
  · norm_num [parseSOLBalanceChanges, c5tx, c5msg, solStep, solEntryFor,
      jsGet, jAccTruthy, JAccount.addr, js_bind_ok, js_pure]
    simp

/-- C1 witness: the amended statement with X = 1, Y = 5 for signer wallet
"A" buying mint "MINT1". -/
theorem C1_witness :
    analyzeSOLTokenTrade [⟨"MINT1", "A", 0, 5, 5, 6⟩]
      [⟨"A", some 2, 1, some (-1), true, false⟩] =
    .ok (some
      { type := "buy"
        soldToken := ⟨SOL_MINT, "SOL", 1, 9⟩
        boughtToken := ⟨"MINT1", "Token", 5, 6⟩
        price := 1 / 5
        holderAddress := some "A" }) := by
  have h := C1_theorem 1 5 "MINT1" "A" 6 0 5 2 1 true false
    (by norm_num) (by norm_num) (by decide) (by decide) (by decide)
  simpa using h

/-- C6 counterexample: on a record whose `postBalances` is present but
whose `preBalances` is absent, `parseSOLBalanceChanges` throws
(`meta.preBalances[index]` is a property access on `undefined`), so the
extractor is not exception-free on malformed balance arrays. -/
theorem C6_counterexample : parseSOLBalanceChanges c6tx = .error () := by
  rfl

/-- C6 amended: the token extractor is total and yields `[]` when both
token balance arrays are absent, and the native extractor yields `[]`
when `postBalances` is absent (given the `transaction` sub-object exists);
the never-throws part of the claim fails only on records with
`postBalances` present but `message` or `preBalances` missing. -/
theorem C6_theorem (m : Option Meta) (tx : Tx) (td : TxData)
    (h1 : m.bind Meta.preTokenBalances = none)
    (h2 : m.bind Meta.postTokenBalances = none)
    (h3 : tx.transaction = some td)
    (h4 : tx.meta.bind Meta.postBalances = none) :
    parseTokenBalanceChanges m = [] ∧ parseSOLBalanceChanges tx = .ok [] := by
  constructor
  · cases m with
    | none => rfl
    | some mm =>
      simp only [Option.some_bind] at h1 h2
      unfold parseTokenBalanceChanges
      simp [h1, h2]
  · unfold parseSOLBalanceChanges
    rw [h3]
    simp only [jsGet, js_bind_ok]
    cases htx : tx.meta with
    | none => simp [js_pure]
    | some mm =>
      rw [htx] at h4
      simp only [Option.some_bind] at h4
      simp [h4, js_pure]

/-- C6 witness: the amended statement on a record with no balance arrays
at all. -/
theorem C6_witness :
    parseTokenBalanceChanges (some {}) = [] ∧
    parseSOLBalanceChanges ⟨none, some {}⟩ = .ok [] :=
  C6_theorem (some {}) ⟨none, some {}⟩ {} rfl rfl rfl rfl

/-- C10: whenever the lowercased concatenated log text contains a
liquidity keyword, or any top-level or inner parsed instruction type does,
the generic parser returns `null` before attempting any classification. -/
theorem C10_theorem (tx : Tx) (dex : String)
    (h : hasLiquidityKeyword (allLogTextOf tx.meta) = true ∨
      (((tx.transaction.bind TxData.message).bind Message.instructions).getD
        []).any instrHasLiquidity = true ∨
      ((tx.meta.bind Meta.innerInstructions).getD []).any (fun inner =>
        match inner.instructions with
        | some l => l.any instrHasLiquidity
        | none => false) = true) :
    parseGenericTransaction tx dex = .ok none := by
  unfold parseGenericTransaction
  rcases h with h | h | h <;> simp [h, js_pure]

/-- C10 witness: a transaction logging `Instruction: Deposit` yields no
outcome even though no other data is present. -/
theorem C10_witness : parseGenericTransaction c10tx "unknown" = .ok none :=
  C10_theorem c10tx "unknown" (Or.inl (by decide))

/-- C7 (code bug): on a transaction whose significant deltas are several
native-only changes (−2 SOL, −1 SOL, +2.5 SOL), the generic parser reaches
the multiple-changes representative-pair branch and returns `null`: the
guard compares the representative mints against the literal string `'SOL'`
while native entries carry the full native mint address, so the branch
never fires for genuine native deltas. -/
theorem C7_theorem : parseGenericTransaction c7tx "unknown" = .ok none := by
  have henum : ([1000000000, 0, 2500000000] : List ℤ).enum
      = [(0, 1000000000), (1, 0), (2, 2500000000)] := by decide
  set_option maxHeartbeats 2000000 in
  norm_num +decide [parseGenericTransaction, c7tx, parseTokenBalanceChanges,
    parseSOLBalanceChanges, henum, solStep, solEntryFor, jsGet, js_bind_ok,
    js_pure,
    analyzeSOLTokenTrade, analyzeSOLTokenTrade.analyzeSellSide,
    hasLiquidityKeyword, instrHasLiquidity, allLogTextOf, liquidityOperations,
    jsIncludes, jsToLower, chAbsGt, chNeg, chPos, chVal, jsAbs, jsReduceMax,
    jmGet, jmSet, jmHas, jOrElse, jOr3, jFalsy, SOL_MINT, jAccTruthy,
    JAccount.addr, symbolOf, inferTradeType, calculatePrice, List.filter]

/-- C3: when the Pump.fun log text names the instruction direction and it
contradicts the direction inferred from balance deltas, the parser's final
outcome takes the log-derived type, with sold and bought tokens swapped
and the price recomputed as boughtToken.amount / soldToken.amount of the
final outcome; symmetrically for both directions. -/
theorem C3_theorem (tx : Tx) (td : TxData) (msg : Message)
    (instrs : List Instr) (sc : List SolChange) (t0 : TradeInfo)
    (h1 : tx.transaction = some td) (h2 : td.message = some msg)
    (h3 : msg.instructions = some instrs)
    (hguard : jsIncludes (allLogTextOf tx.meta)
      (jsToLower PUMP_FUN_PROGRAM_ID) = true)
    (hsol : parseSOLBalanceChanges tx = .ok sc)
    (hana : analyzeSOLTokenTrade (parseTokenBalanceChanges tx.meta) sc
      = .ok (some t0)) :
    (jsIncludes (allLogTextOf tx.meta) "instruction: sell" = true →
      t0.type = "buy" →
      parsePumpFunTransaction tx = .ok (some
        { t0 with
          soldToken := t0.boughtToken
          boughtToken := t0.soldToken
          type := "sell"
          price := t0.soldToken.amount / t0.boughtToken.amount
          dex := some "pump_fun_amm"
          source := some "pump_fun_parser"
          platform := some "pump.fun"
          instrCount := some ((mainPumpInstrs instrs msg.accountKeys).length
            + (innerPumpInstrs tx.meta msg.accountKeys).length)
          routed := some
            (0 < (innerPumpInstrs tx.meta msg.accountKeys).length) })) ∧
    (jsIncludes (allLogTextOf tx.meta) "instruction: buy" = true →
      t0.type = "sell" →
      parsePumpFunTransaction tx = .ok (some
        { t0 with
          soldToken := t0.boughtToken
          boughtToken := t0.soldToken
          type := "buy"
          price := t0.soldToken.amount / t0.boughtToken.amount
          dex := some "pump_fun_amm"
          source := some "pump_fun_parser"
          platform := some "pump.fun"
          instrCount := some ((mainPumpInstrs instrs msg.accountKeys).length
            + (innerPumpInstrs tx.meta msg.accountKeys).length)
          routed := some
            (0 < (innerPumpInstrs tx.meta msg.accountKeys).length) })) := by
  constructor
  · intro hlog htype
    unfold parsePumpFunTransaction
    simp [h1, h2, h3, jsGet, js_bind_ok, js_pure, hguard, hsol, hana,
      hlog, htype]
  · intro hlog htype
    unfold parsePumpFunTransaction
    simp [h1, h2, h3, jsGet, js_bind_ok, js_pure, hguard, hsol, hana,
      hlog, htype]

/-- C3 witness: on `c3tx` (deltas imply buy, log says sell) the parser
returns a sell with the tokens swapped and price 1/5. -/
theorem C3_witness :
    parsePumpFunTransaction c3tx = .ok (some
      { type := "sell"
        soldToken := ⟨"MINTP", "Token", 5, 6⟩
        boughtToken := ⟨SOL_MINT, "SOL", 1, 9⟩
        price := 1/5
        holderAddress := some "A"
        dex := some "pump_fun_amm"
        source := some "pump_fun_parser"
        platform := some "pump.fun"
        instrCount := some 0
        routed := some false }) := by
  have hsol : parseSOLBalanceChanges c3tx = .ok c3sol := by
    have henum : ([1000000000, 1000000000] : List ℤ).enum
        = [(0, 1000000000), (1, 1000000000)] := by decide
    norm_num [parseSOLBalanceChanges, c3tx, c3msg, c3sol, henum, solStep,
      solEntryFor, jsGet, js_bind_ok, js_pure, jAccTruthy, JAccount.addr]
    simp
  have hana : analyzeSOLTokenTrade (parseTokenBalanceChanges c3tx.meta) c3sol
      = .ok (some c3buy) := by
    set_option maxHeartbeats 1000000 in
    norm_num [analyzeSOLTokenTrade, analyzeSOLTokenTrade.analyzeSellSide,
      parseTokenBalanceChanges, c3tx, c3sol, c3buy, tbKeyed, tbKey,
      TokenBal.amt, TokenBal.dec, chAbsGt, chNeg, chPos, chVal, jsAbs,
      jsReduceMax, jmGet, jmSet, jmHas, jOrElse, jOr3, jFalsy, SOL_MINT,
      List.filter]
    simp
  have h := (C3_theorem c3tx { message := some c3msg } c3msg [] c3sol c3buy
      rfl rfl rfl (by decide) hsol hana).1 (by decide) rfl
  simpa [c3buy, c3msg, c3tx, mainPumpInstrs, innerPumpInstrs, SOL_MINT]
    using h

/-- Membership test distributes over map concatenation. -/
theorem jmHas_append {α : Type} (a b : JMap α) (k : String) :
    jmHas (a ++ b) k = (jmHas a k || jmHas b k) := by
  simp [jmHas, List.any_append]

/-- Setting a key that is not yet present appends the new pair. -/
theorem jmSet_fresh {α : Type} (m : JMap α) (k : String) (v : α)
    (h : jmHas m k = false) : jmSet m k v = m ++ [(k, v)] := by
  unfold jmSet
  rw [show (m.any fun p => p.1 = k) = false from h]
  simp

/-- Folding conditional inserts of fresh distinct keys appends, in order,
one pair per key on which `f` succeeds. -/
theorem foldl_insert_fresh (f : String → Option TradeInfo) :
    ∀ (l : List String) (acc : JMap TradeInfo), l.Nodup →
      (∀ s ∈ l, jmHas acc s = false) →
      l.foldl (fun a s => match f s with
        | some t => jmSet a s t
        | none => a) acc
        = acc ++ l.filterMap (fun s => (f s).map (fun t => (s, t)))
  | [], acc, _, _ => by simp
  | s :: t, acc, hnd, hfresh => by
    simp only [List.foldl_cons]
    cases hf : f s with
    | none =>
      have hrec := foldl_insert_fresh f t acc hnd.of_cons
        (fun s' hs' => hfresh s' (List.mem_cons_of_mem _ hs'))
      simpa [hf] using hrec
    | some v =>
      have hset := jmSet_fresh acc s v (hfresh s (by simp))
      have hrec := foldl_insert_fresh f t (acc ++ [(s, v)]) hnd.of_cons
        (by
          intro s' hs'
          rw [jmHas_append]
          have h1 := hfresh s' (List.mem_cons_of_mem _ hs')
          have h2 : jmHas [(s, v)] s' = false := by
            simp only [jmHas, List.any_cons, List.any_nil, Bool.or_false,
              decide_eq_false_iff_not]
            intro hk
            exact absurd (hk ▸ hs') (List.nodup_cons.mp hnd).1
          rw [h1, h2]
          rfl)
      simpa [hf, hset] using hrec

/-- When every bulk fetch throws, the batch loop classifies each signature
through the individual fallback, in input order. -/
theorem batchLoop_allFail (w : BatchWorld)
    (hf : ∀ b, w.fetchBatch b = .error ()) (bs : ℕ) (hbs : 1 ≤ bs) :
    ∀ (fuel : ℕ) (sigs : List String) (acc : JMap TradeInfo),
      sigs.length ≤ fuel → sigs.Nodup →
      (∀ s ∈ sigs, jmHas acc s = false) →
      batchLoop w bs fuel sigs acc
        = acc ++ sigs.filterMap (fun s =>
            (parseTradeInfoInternal w s).map (fun t => (s, t)))
  | 0, sigs, acc, hlen, _, _ => by
    have h0 : sigs = [] := List.length_eq_zero.mp (Nat.le_zero.mp hlen)
    subst h0
    simp [batchLoop]
  | fuel + 1, [], acc, _, _, _ => by simp [batchLoop]
  | fuel + 1, s :: rest, acc, hlen, hnd, hfresh => by
    have hsigs : List.take bs (s :: rest) ++ List.drop bs (s :: rest)
        = s :: rest := List.take_append_drop _ _
    have htnd : (List.take bs (s :: rest)).Nodup :=
      hnd.sublist (List.take_sublist _ _)
    have hdnd : (List.drop bs (s :: rest)).Nodup :=
      hnd.sublist (List.drop_sublist _ _)
    have hdisj : List.Disjoint (List.take bs (s :: rest))
        (List.drop bs (s :: rest)) := by
      have hnd' := hnd
      rw [← hsigs] at hnd'
      exact (List.nodup_append.mp hnd').2.2
    have hproc : processBatch w (List.take bs (s :: rest)) acc
        = acc ++ (List.take bs (s :: rest)).filterMap (fun s =>
            (parseTradeInfoInternal w s).map (fun t => (s, t))) := by
      unfold processBatch
      rw [hf]
      exact foldl_insert_fresh _ _ acc htnd
        (fun s' hs' => hfresh s' (List.mem_of_mem_take hs'))
    have hfresh' : ∀ s' ∈ List.drop bs (s :: rest),
        jmHas (acc ++ (List.take bs (s :: rest)).filterMap (fun s =>
          (parseTradeInfoInternal w s).map (fun t => (s, t)))) s' = false := by
      intro s' hs'
      rw [jmHas_append, hfresh s' (List.mem_of_mem_drop hs')]
      have h2 : jmHas ((List.take bs (s :: rest)).filterMap (fun s =>
          (parseTradeInfoInternal w s).map (fun t => (s, t)))) s' = false := by
        rw [jmHas, List.any_eq_false]
        intro p hp
        simp only [List.mem_filterMap] at hp
        obtain ⟨a, ha, hg⟩ := hp
        simp only [Option.map_eq_some'] at hg
        obtain ⟨t, -, rfl⟩ := hg
        intro hk
        exact hdisj ((of_decide_eq_true hk) ▸ ha) hs'
      rw [h2]
      rfl
    have hstep : batchLoop w bs (fuel + 1) (s :: rest) acc
        = batchLoop w bs fuel (List.drop bs (s :: rest))
            (processBatch w (List.take bs (s :: rest)) acc) := rfl
    rw [hstep, hproc,
      batchLoop_allFail w hf bs hbs fuel (List.drop bs (s :: rest)) _
        (by
          have h1 : (s :: rest).length ≤ fuel + 1 := hlen
          have h2 : (List.drop bs (s :: rest)).length
              = (s :: rest).length - bs := List.length_drop _ _
          omega)
        hdnd hfresh']
    rw [List.append_assoc, ← List.filterMap_append, hsigs]

/-- C4 amended: when every bulk fetch of a batch throws, the pipeline
classifies each signature of the batch individually through
`parser.parseTrade` with the external-API path DISABLED
(`useJupiterAPI = false`, `useCache = true`); signatures whose individual
classification fails or throws are simply absent from the result map, and
the pipeline itself never surfaces an exception. -/
theorem C4_theorem (w : BatchWorld) (sigs : List String)
    (hf : ∀ b, w.fetchBatch b = .error ()) (hnd : sigs.Nodup) :
    parseMultipleTradeInfo w sigs 50
      = sigs.filterMap (fun s =>
          match w.parseTrade s ⟨false, true⟩ with
          | .ok (some t) => some (s, { toLite t with holderAddress := none })
          | .ok none => none
          | .error _ => none) := by
  unfold parseMultipleTradeInfo
  by_cases he : sigs.isEmpty
  · rw [if_pos he]
    have h0 : sigs = [] := List.isEmpty_iff.mp he
    simp [h0]
  · rw [if_neg he]
    have hne : sigs ≠ [] := by
      intro h0
      rw [h0] at he
      exact he rfl
    have hbs : 1 ≤ (if sigs.length ≤ 50 then sigs.length else min 50 50) := by
      have := List.length_pos.mpr hne
      split <;> omega
    rw [batchLoop_allFail w hf _ hbs sigs.length sigs [] le_rfl hnd
      (fun s _ => rfl)]
    rw [List.nil_append]
    apply List.filterMap_congr
    intro s _
    unfold parseTradeInfoInternal
    cases w.parseTrade s ⟨false, true⟩ with
    | error e => rfl
    | ok o => cases o <;> rfl

/-- C4 counterexample: with a world whose bulk fetch always throws and
whose per-signature classification succeeds exactly when the external-API
path is enabled, the claim predicts the signature appears in the result
map; the pipeline instead calls the fallback with the API disabled and
returns an empty map. -/
theorem C4_counterexample :
    parseMultipleTradeInfo c4world ["sig1"] 50 = [] ∧
    c4world.parseTrade "sig1" ⟨true, true⟩ = .ok (some c4trade) :=
  ⟨rfl, rfl⟩

/-- C4 witness: the amended statement on a one-signature batch whose
individual classification succeeds. -/
theorem C4_witness :
    parseMultipleTradeInfo c4world2 ["s1"] 50
      = [("s1", { toLite c4trade with holderAddress := none })] := by
  have h := C4_theorem c4world2 ["s1"] (fun b => rfl) (by simp)
  simpa [c4world2] using h

end SolExplain
